import Mathlib

/-!
Verification of the connection/engine lifecycle, schema-introspection cache and
instrumented query-execution pipeline of `src/main.py` (oraca-backend).

The Python module keeps two process-wide dictionaries, `METADATA_STORAGE` and
`ENGINE_CACHE`, and exposes the operations `get_engine`, `validate_connection`,
`executeQuery`, `getschema` and the `lifespan` shutdown hook.  We embed the
dictionaries as association lists over `String` keys (Python `dict` semantics:
lookup by exact key equality, assignment overwrites), engines as records that
carry an identity (standing for Python object identity), the 5/10 pool
configuration and the lists of registered `before_execute` / `after_execute`
event listeners (SQLAlchemy `event.listen` appends a listener on every call and
fires each registered listener once per statement execution).

Outcomes of the external database (liveness probe, introspection, statement
execution) are inputs of the embedded operations: `DbOutcome` says whether the
probe or the introspection raised a `SQLAlchemyError` (and with which message)
or succeeded with a metadata snapshot, `ExecOutcome` the same for the body of
`executeQuery`.  The operations are total Lean functions returning the HTTP
response (a list of key/value pairs, embedding the returned Python dict) and
the successor state; an uncaught exception would appear as a distinguished
outcome, and there is none because every path of the Python code under the
`try` is covered by its `except SQLAlchemyError` handler.
-/

/-- A column descriptor of one table.  Modelled from the spec: `schema.py`
(`TableSchema`, `Metadata`) is not part of the sources; §3 of the spec
describes a TableSchema as an ordered sequence of column descriptors
(name, declared type, nullability, key role). -/
structure ColumnDesc where
  name : String
  declaredType : String
  nullable : Bool
  keyRole : String
deriving DecidableEq, Repr

/-- Modelled from the spec: one database table, an ordered sequence of column
descriptors plus optional extra statistics (row count). -/
structure TableSchema where
  columns : List ColumnDesc
  rowCount : Option Nat
deriving DecidableEq, Repr

/-- Modelled from the spec: the full snapshot for one database, a mapping from
table name to `TableSchema`, with a `schema` field as accessed by
`metadata.schema` in `getschema` (`src/main.py` line 92). -/
structure Metadata where
  schema : List (String × TableSchema)
  extraStats : List (String × Nat)
deriving DecidableEq, Repr

/-- A pooled SQLAlchemy engine as created by
`create_engine(connection_string, pool_size=5, max_overflow=10)`
(`src/main.py` line 39).  `id` stands for Python object identity (fresh at
each `create_engine` call); `beforeListeners` / `afterListeners` are the
listener lists that `event.listen(engine, "before_execute", ...)` /
`event.listen(engine, "after_execute", ...)` append to. -/
structure Engine where
  id : Nat
  poolSize : Nat
  maxOverflow : Nat
  beforeListeners : List String
  afterListeners : List String
deriving DecidableEq, Repr

/-- Dictionary lookup on an association list: Python `d[k]` / `k in d`. -/
def dictLookup (k : String) : List (String × α) → Option α
  | [] => none
  | (k', v) :: rest => if k' = k then some v else dictLookup k rest

/-- Dictionary assignment `d[k] = v`: overwrite the entry for `k` if present,
append otherwise. -/
def dictInsert (k : String) (v : α) : List (String × α) → List (String × α)
  | [] => [(k, v)]
  | (k', v') :: rest =>
      if k' = k then (k, v) :: rest else (k', v') :: dictInsert k v rest

/-- The process-wide state of `src/main.py`: the two module-level dictionaries
(lines 32-33) plus the allocation counter that makes engine identities
fresh. -/
structure CoreState where
  METADATA_STORAGE : List (String × Metadata)
  ENGINE_CACHE : List (String × Engine)
  nextId : Nat
deriving DecidableEq, Repr

/-- The state at process start: both dictionaries empty. -/
def initState : CoreState := { METADATA_STORAGE := [], ENGINE_CACHE := [], nextId := 0 }

/-- `get_engine` (`src/main.py` lines 37-41): if the connection string is not
in `ENGINE_CACHE`, create an engine with pool size 5 and max overflow 10 and
store it; return the cached engine. -/
def get_engine (connection_string : String) (st : CoreState) : Engine × CoreState :=
  match dictLookup connection_string st.ENGINE_CACHE with
  | some engine => (engine, st)
  | none =>
      let engine : Engine :=
        { id := st.nextId, poolSize := 5, maxOverflow := 10,
          beforeListeners := [], afterListeners := [] }
      (engine,
       { st with
           ENGINE_CACHE := dictInsert connection_string engine st.ENGINE_CACHE,
           nextId := st.nextId + 1 })

theorem dictLookup_dictInsert_self (k : String) (v : α) (m : List (String × α)) :
    dictLookup k (dictInsert k v m) = some v := by
  induction m with
  | nil => simp [dictInsert, dictLookup]
  | cons p rest ih =>
      by_cases h : p.1 = k
      · simp [dictInsert, dictLookup, h]
      · simpa [dictInsert, dictLookup, h] using ih

theorem dictLookup_dictInsert_ne (k k' : String) (v : α) (m : List (String × α))
    (h : k' ≠ k) : dictLookup k' (dictInsert k v m) = dictLookup k' m := by
  induction m with
  | nil => simp [dictInsert, dictLookup, Ne.symm h]
  | cons p rest ih =>
      by_cases hp : p.1 = k
      · subst hp
        simp [dictInsert, dictLookup, Ne.symm h]
      · simp only [dictInsert, if_neg hp, dictLookup]
        by_cases hk : p.1 = k'
        · simp [hk]
        · simp [hk, ih]

/-- After any call of `get_engine s`, the cache holds the returned engine. -/
theorem get_engine_caches (s : String) (st : CoreState) :
    dictLookup s (get_engine s st).2.ENGINE_CACHE = some (get_engine s st).1 := by
  unfold get_engine
  cases h : dictLookup s st.ENGINE_CACHE with
  | some e => simp [h]
  | none => simp [h, dictLookup_dictInsert_self]

/-- C1. For every connection string `s`, two sequential calls of
`get_engine s` return the same `Engine` instance: the first call that finds no
cached engine creates one and stores it in `ENGINE_CACHE`, and the second call
returns exactly that stored instance without changing the state, so at most
one engine exists per distinct connection string (absent shutdown). -/
theorem get_engine_same_instance_twice (s : String) (st : CoreState) :
    (get_engine s (get_engine s st).2).1 = (get_engine s st).1 ∧
    (get_engine s (get_engine s st).2).2 = (get_engine s st).2 ∧
    dictLookup s (get_engine s st).2.ENGINE_CACHE = some (get_engine s st).1 := by
  have hc := get_engine_caches s st
  refine ⟨?_, ?_, hc⟩ <;>
    · conv_lhs => rw [get_engine]
      rw [hc]

/-- A JSON value appearing in one of the endpoint responses of `src/main.py`. -/
inductive RespVal where
  | vBool (b : Bool)
  | vStr (s : String)
  | vMeta (m : Metadata)
  | vSchema (sch : List (String × TableSchema))
deriving DecidableEq, Repr

/-- An endpoint response: the returned Python dict as an ordered list of
key/value pairs. -/
def Response : Type := List (String × RespVal)

/-- Outcome of the external database during `validate_connection`: the
liveness probe `connection.execute(text("SELECT 1"))` raises a
`SQLAlchemyError`, or the introspection `get_db_metadata(engine)` raises one,
or both succeed and introspection yields a metadata snapshot. -/
inductive DbOutcome where
  | probeFail (msg : String)
  | introspectFail (msg : String)
  | ok (md : Metadata)
deriving DecidableEq, Repr

/-- `validate_connection` (`src/main.py` lines 46-65): resolve the engine via
`get_engine`, open a connection, run the liveness probe, introspect via
`get_db_metadata`, store the snapshot in `METADATA_STORAGE`, then attach the
`before_execute` and `after_execute` listeners via `event.listen`, and return
`{"success": True, "data": metadata}`; any `SQLAlchemyError` on the way is
caught and turned into `{"success": False, "message": str(e)}`. -/
def validate_connection (connection_string : String) (db : DbOutcome)
    (st : CoreState) : Response × CoreState :=
  let r := get_engine connection_string st
  let engine := r.1
  let st1 := r.2
  match db with
  | .probeFail msg =>
      ([("success", .vBool false), ("message", .vStr msg)], st1)
  | .introspectFail msg =>
      ([("success", .vBool false), ("message", .vStr msg)], st1)
  | .ok metadata =>
      let engine' : Engine :=
        { engine with
            beforeListeners := engine.beforeListeners ++ ["before_execute"],
            afterListeners := engine.afterListeners ++ ["after_execute"] }
      ([("success", .vBool true), ("data", .vMeta metadata)],
       { st1 with
           METADATA_STORAGE :=
             dictInsert connection_string metadata st1.METADATA_STORAGE,
           ENGINE_CACHE :=
             dictInsert connection_string engine' st1.ENGINE_CACHE })

/-- Outcome of the body of `executeQuery` once the engine is resolved: either
`execute_query(connection, query)` returns a response dict, or a
`SQLAlchemyError` is raised (by `engine.connect()` or inside
`execute_query`). -/
inductive ExecOutcome where
  | ok (resp : List (String × RespVal))
  | raise (msg : String)
deriving DecidableEq, Repr

/-- `executeQuery` (`src/main.py` lines 72-85): if the connection string or
the query is falsy (the empty string), return the missing-field error without
touching any state; otherwise resolve the engine and run
`execute_query(connection, query)`, translating a raised `SQLAlchemyError`
into `{"success": False, "message": str(e)}`. -/
def executeQuery (connection_string query : String) (ex : ExecOutcome)
    (st : CoreState) : Response × CoreState :=
  if connection_string = "" ∨ query = "" then
    ([("success", .vBool false),
      ("message", .vStr "Connection string or Query is missing")], st)
  else
    let r := get_engine connection_string st
    match ex with
    | .ok resp => (resp, r.2)
    | .raise msg =>
        ([("success", .vBool false), ("message", .vStr msg)], r.2)

/-- `getschema` (`src/main.py` lines 88-94): look up
`METADATA_STORAGE[request.connection_string]` and return
`{"success": True, "data": metadata.schema}`; the bare `except` turns the
`KeyError` of a missing entry into
`{"success": False, "message": "Failed to get schema"}`.  The state is not
modified. -/
def getschema (connection_string : String) (st : CoreState) : Response :=
  match dictLookup connection_string st.METADATA_STORAGE with
  | some metadata => [("success", .vBool true), ("data", .vSchema metadata.schema)]
  | none => [("success", .vBool false), ("message", .vStr "Failed to get schema")]

/-- The identities of the engines disposed by the `lifespan` teardown
(`src/main.py` lines 168-170): the loop calls `engine.dispose()` once for
each entry of `ENGINE_CACHE`, in order. -/
def shutdownTrace (st : CoreState) : List Nat :=
  st.ENGINE_CACHE.map (fun p => p.2.id)

/-- The `lifespan` teardown (`src/main.py` lines 164-171): after disposing
every cached engine it runs `ENGINE_CACHE.clear()`.  `METADATA_STORAGE` is
not touched. -/
def disposeAll (st : CoreState) : CoreState :=
  { st with ENGINE_CACHE := [] }

/-- The identities of the engines currently held by `ENGINE_CACHE`. -/
def cacheIds (st : CoreState) : List Nat :=
  st.ENGINE_CACHE.map (fun p => p.2.id)

/-- Number of times the registered `before_execute` listeners fire when one
statement is executed on `e`: SQLAlchemy invokes every registered listener
once per event. -/
def beforeFires (e : Engine) : Nat := e.beforeListeners.length

/-- Number of times the registered `after_execute` listeners fire when one
statement is executed on `e`. -/
def afterFires (e : Engine) : Nat := e.afterListeners.length

/-- The internal events of one `validate_connection` call, in program order. -/
inductive Ev where
  | probe
  | introspect
  | store
  | attachBefore
  | attachAfter
deriving DecidableEq, Repr

/-- The sequence of internal events a `validate_connection` call performs,
read off `src/main.py` lines 51-61: the probe raises and nothing follows, or
the introspection raises after the probe, or all five steps happen —
probe, introspection, metadata store, then the two `event.listen` calls. -/
def validateTrace : DbOutcome → List Ev
  | .probeFail _ => [.probe]
  | .introspectFail _ => [.probe, .introspect]
  | .ok _ => [.probe, .introspect, .store, .attachBefore, .attachAfter]

/-- The listeners that observe the probe and introspection statements of a
`validate_connection s` call entered in state `st`: exactly the
`before_execute` listeners registered on the engine when the call begins,
since the code attaches its own listeners only after introspection
(`src/main.py` lines 59-61). -/
def introObservers (s : String) (st : CoreState) : List String :=
  (get_engine s st).1.beforeListeners

/-- One inbound operation on the core state. -/
inductive Op where
  | opGetEngine (s : String)
  | opValidate (s : String) (db : DbOutcome)
  | opExecute (s q : String) (ex : ExecOutcome)
  | opGetSchema (s : String)
  | opShutdown
deriving DecidableEq, Repr

/-- The state transition of one operation. -/
def step (st : CoreState) : Op → CoreState
  | .opGetEngine s => (get_engine s st).2
  | .opValidate s db => (validate_connection s db st).2
  | .opExecute s q ex => (executeQuery s q ex st).2
  | .opGetSchema _ => st
  | .opShutdown => disposeAll st

/-- Run a sequence of operations from a state. -/
def run (ops : List Op) (st : CoreState) : CoreState :=
  ops.foldl step st

/-- Whether an operation is a successful validation of `s`: a
`validate_connection s` call in which probe and introspection succeed. -/
def isOkValidateFor (s : String) : Op → Bool
  | .opValidate s' (.ok _) => s' = s
  | _ => false

/-- A sample metadata snapshot (the E2E scenario of the spec: one table
`users(id INT PK, name TEXT)`). -/
def mdSample : Metadata :=
  { schema :=
      [("users",
        { columns :=
            [{ name := "id", declaredType := "INT", nullable := false, keyRole := "PK" },
             { name := "name", declaredType := "TEXT", nullable := true, keyRole := "" }],
          rowCount := some 0 })],
    extraStats := [] }

theorem dictLookup_mem {k : String} {v : α} {m : List (String × α)}
    (h : dictLookup k m = some v) : (k, v) ∈ m := by
  induction m with
  | nil => simp [dictLookup] at h
  | cons p rest ih =>
      cases p with
      | mk a b =>
          by_cases hp : a = k
          · subst hp
            simp only [dictLookup, if_pos] at h
            cases h
            exact List.mem_cons_self _ _
          · simp only [dictLookup, if_neg hp] at h
            exact List.mem_cons_of_mem _ (ih h)

theorem not_mem_keys_of_lookup_none {k : String} {m : List (String × α)}
    (h : dictLookup k m = none) : k ∉ m.map Prod.fst := by
  induction m with
  | nil => simp
  | cons p rest ih =>
      by_cases hp : p.1 = k
      · simp [dictLookup, hp] at h
      · simp only [dictLookup, if_neg hp] at h
        simp only [List.map_cons, List.mem_cons]
        rintro (h' | h')
        · exact hp h'.symm
        · exact ih h h'

theorem dictInsert_of_lookup_none {k : String} {v : α} {m : List (String × α)}
    (h : dictLookup k m = none) : dictInsert k v m = m ++ [(k, v)] := by
  induction m with
  | nil => simp [dictInsert]
  | cons p rest ih =>
      by_cases hp : p.1 = k
      · simp [dictLookup, hp] at h
      · simp only [dictLookup, if_neg hp] at h
        simp [dictInsert, if_neg hp, ih h]

theorem keys_dictInsert_of_lookup_some {k : String} {v w : α} {m : List (String × α)}
    (h : dictLookup k m = some w) :
    (dictInsert k v m).map Prod.fst = m.map Prod.fst := by
  induction m with
  | nil => simp [dictLookup] at h
  | cons p rest ih =>
      by_cases hp : p.1 = k
      · simp [dictInsert, hp]
      · simp only [dictLookup, if_neg hp] at h
        simp [dictInsert, if_neg hp, ih h]

theorem ids_dictInsert_of_lookup_some {k : String} {v w : Engine}
    {m : List (String × Engine)} (h : dictLookup k m = some w) (hid : v.id = w.id) :
    (dictInsert k v m).map (fun p => p.2.id) = m.map (fun p => p.2.id) := by
  induction m with
  | nil => simp [dictLookup] at h
  | cons p rest ih =>
      by_cases hp : p.1 = k
      · simp only [dictLookup, if_pos hp] at h
        cases h
        simp [dictInsert, hp, hid]
      · simp only [dictLookup, if_neg hp] at h
        simp [dictInsert, if_neg hp, ih h]

theorem mem_dictInsert {k : String} {v : α} {m : List (String × α)} {p : String × α}
    (h : p ∈ dictInsert k v m) : p = (k, v) ∨ p ∈ m := by
  induction m with
  | nil => simpa [dictInsert] using h
  | cons q rest ih =>
      by_cases hq : q.1 = k
      · simp only [dictInsert, if_pos hq, List.mem_cons] at h
        rcases h with h | h
        · exact Or.inl h
        · exact Or.inr (List.mem_cons_of_mem _ h)
      · simp only [dictInsert, if_neg hq, List.mem_cons] at h
        rcases h with h | h
        · exact Or.inr (by rw [h]; exact List.mem_cons_self _ _)
        · rcases ih h with h' | h'
          · exact Or.inl h'
          · exact Or.inr (List.mem_cons_of_mem _ h')

/-- `get_engine` never touches `METADATA_STORAGE`. -/
theorem get_engine_store (s : String) (st : CoreState) :
    (get_engine s st).2.METADATA_STORAGE = st.METADATA_STORAGE := by
  unfold get_engine
  cases dictLookup s st.ENGINE_CACHE <;> simp

/-- `get_engine` never decreases the allocation counter. -/
theorem get_engine_nextId (s : String) (st : CoreState) :
    st.nextId ≤ (get_engine s st).2.nextId := by
  unfold get_engine
  cases dictLookup s st.ENGINE_CACHE <;> simp

/-- The state left by `executeQuery`: untouched on a missing field, otherwise
exactly what `get_engine` left (the body performs no further state change). -/
theorem executeQuery_state (s q : String) (ex : ExecOutcome) (st : CoreState) :
    (executeQuery s q ex st).2 =
      if s = "" ∨ q = "" then st else (get_engine s st).2 := by
  unfold executeQuery
  by_cases h : s = "" ∨ q = ""
  · simp [h]
  · cases ex <;> simp [h]

/-- Well-formedness of the core state: the cache keys are pairwise distinct
(a Python dict has unique keys), the cached engine identities are pairwise
distinct (each `create_engine` call yields a fresh object), and every cached
identity is below the allocation counter. -/
def StInv (st : CoreState) : Prop :=
  (st.ENGINE_CACHE.map Prod.fst).Nodup ∧
  (st.ENGINE_CACHE.map (fun p => p.2.id)).Nodup ∧
  ∀ p ∈ st.ENGINE_CACHE, p.2.id < st.nextId

theorem stInv_init : StInv initState := by
  refine ⟨List.nodup_nil, List.nodup_nil, ?_⟩
  intro p hp
  simp [initState] at hp

theorem stInv_get_engine (s : String) (st : CoreState) (h : StInv st) :
    StInv (get_engine s st).2 := by
  obtain ⟨hk, hi, hb⟩ := h
  unfold get_engine
  cases hc : dictLookup s st.ENGINE_CACHE with
  | some e => exact ⟨hk, hi, hb⟩
  | none =>
      simp only
      rw [dictInsert_of_lookup_none hc]
      refine ⟨?_, ?_, ?_⟩
      · rw [List.map_append]
        rw [List.nodup_append]
        exact ⟨hk, List.nodup_singleton _,
          by simpa using fun h' => not_mem_keys_of_lookup_none hc h'⟩
      · rw [List.map_append]
        rw [List.nodup_append]
        refine ⟨hi, List.nodup_singleton _, ?_⟩
        intro i hmem
        simp only [List.mem_map] at hmem
        obtain ⟨p, hp, hpid⟩ := hmem
        simp only [List.map_cons, List.map_nil, List.mem_singleton]
        intro h'
        exact absurd (h' ▸ hpid ▸ hb p hp) (lt_irrefl _)
      · intro p hp
        rcases List.mem_append.mp hp with h' | h'
        · exact Nat.lt_succ_of_lt (hb p h')
        · simp only [List.mem_singleton] at h'
          subst h'
          exact Nat.lt_succ_self _

/-- The engine returned by `get_engine` has identity below the new counter. -/
theorem get_engine_id_lt (s : String) (st : CoreState) (h : StInv st) :
    (get_engine s st).1.id < (get_engine s st).2.nextId := by
  have hinv := stInv_get_engine s st h
  exact hinv.2.2 _ (dictLookup_mem (get_engine_caches s st))

/-- The engine that a successful `validate_connection s` call leaves under key
`s`: the resolved engine with one more `before_execute` and one more
`after_execute` listener appended by the two `event.listen` calls. -/
def listenedEngine (s : String) (st : CoreState) : Engine :=
  { (get_engine s st).1 with
      beforeListeners := (get_engine s st).1.beforeListeners ++ ["before_execute"],
      afterListeners := (get_engine s st).1.afterListeners ++ ["after_execute"] }

theorem validate_ok_cache (s : String) (md : Metadata) (st : CoreState) :
    (validate_connection s (.ok md) st).2.ENGINE_CACHE =
      dictInsert s (listenedEngine s st) (get_engine s st).2.ENGINE_CACHE := rfl

theorem validate_ok_store (s : String) (md : Metadata) (st : CoreState) :
    (validate_connection s (.ok md) st).2.METADATA_STORAGE =
      dictInsert s md (get_engine s st).2.METADATA_STORAGE := rfl

theorem validate_ok_nextId (s : String) (md : Metadata) (st : CoreState) :
    (validate_connection s (.ok md) st).2.nextId = (get_engine s st).2.nextId := rfl

theorem stInv_validate (s : String) (db : DbOutcome) (st : CoreState)
    (h : StInv st) : StInv (validate_connection s db st).2 := by
  have h1 := stInv_get_engine s st h
  have hid := get_engine_id_lt s st h
  cases db with
  | probeFail msg => exact h1
  | introspectFail msg => exact h1
  | ok md =>
      obtain ⟨hk, hi, hb⟩ := h1
      have hc := get_engine_caches s st
      refine ⟨?_, ?_, ?_⟩
      · rw [validate_ok_cache, keys_dictInsert_of_lookup_some hc]
        exact hk
      · rw [validate_ok_cache,
          ids_dictInsert_of_lookup_some (v := listenedEngine s st) hc rfl]
        exact hi
      · intro p hp
        rw [validate_ok_cache] at hp
        rw [validate_ok_nextId]
        rcases mem_dictInsert hp with h' | h'
        · subst h'
          exact hid
        · exact hb p h'

theorem stInv_step (st : CoreState) (op : Op) (h : StInv st) : StInv (step st op) := by
  cases op with
  | opGetEngine s => exact stInv_get_engine s st h
  | opValidate s db => exact stInv_validate s db st h
  | opExecute s q ex =>
      simp only [step]
      rw [executeQuery_state]
      by_cases hc : s = "" ∨ q = ""
      · rw [if_pos hc]
        exact h
      · rw [if_neg hc]
        exact stInv_get_engine s st h
  | opGetSchema s => exact h
  | opShutdown =>
      refine ⟨List.nodup_nil, List.nodup_nil, ?_⟩
      intro p hp
      exact absurd hp (List.not_mem_nil p)

theorem stInv_run (ops : List Op) : StInv (run ops initState) := by
  suffices h : ∀ st : CoreState, StInv st → StInv (run ops st) from h _ stInv_init
  induction ops with
  | nil => exact fun st h => h
  | cons op rest ih => exact fun st h => ih _ (stInv_step st op h)

/-- Connection string `s` carries no trace of a successful validation: no
metadata entry, and any cached engine for `s` has no registered listeners. -/
def Unvalidated (s : String) (st : CoreState) : Prop :=
  dictLookup s st.METADATA_STORAGE = none ∧
  ∀ e, dictLookup s st.ENGINE_CACHE = some e →
    e.beforeListeners = [] ∧ e.afterListeners = []

theorem unvalidated_init (s : String) : Unvalidated s initState := by
  refine ⟨rfl, ?_⟩
  intro e he
  simp [initState, dictLookup] at he

theorem unvalidated_get_engine (s s' : String) (st : CoreState)
    (h : Unvalidated s st) : Unvalidated s (get_engine s' st).2 := by
  obtain ⟨hm, he⟩ := h
  unfold get_engine
  cases hc : dictLookup s' st.ENGINE_CACHE with
  | some e => exact ⟨hm, he⟩
  | none =>
      refine ⟨hm, ?_⟩
      intro e hlook
      simp only at hlook
      by_cases hss : s = s'
      · subst hss
        rw [dictLookup_dictInsert_self] at hlook
        cases hlook
        exact ⟨rfl, rfl⟩
      · rw [dictLookup_dictInsert_ne s' s _ _ hss] at hlook
        exact he e hlook

theorem unvalidated_step (s : String) (st : CoreState) (op : Op)
    (hop : isOkValidateFor s op = false) (h : Unvalidated s st) :
    Unvalidated s (step st op) := by
  cases op with
  | opGetEngine s' => exact unvalidated_get_engine s s' st h
  | opValidate s' db =>
      cases db with
      | probeFail msg => exact unvalidated_get_engine s s' st h
      | introspectFail msg => exact unvalidated_get_engine s s' st h
      | ok md =>
          have hne : ¬(s' = s) := by simpa [isOkValidateFor] using hop
          have h1 := unvalidated_get_engine s s' st h
          refine ⟨?_, ?_⟩
          · show dictLookup s (validate_connection s' (.ok md) st).2.METADATA_STORAGE = none
            rw [validate_ok_store, dictLookup_dictInsert_ne s' s _ _ (Ne.symm hne)]
            exact h1.1
          · intro e hlook
            rw [show (step st (.opValidate s' (.ok md))).ENGINE_CACHE =
                  (validate_connection s' (.ok md) st).2.ENGINE_CACHE from rfl,
                validate_ok_cache,
                dictLookup_dictInsert_ne s' s _ _ (Ne.symm hne)] at hlook
            exact h1.2 e hlook
  | opExecute s' q ex =>
      show Unvalidated s (executeQuery s' q ex st).2
      rw [executeQuery_state]
      by_cases hc : s' = "" ∨ q = ""
      · rw [if_pos hc]
        exact h
      · rw [if_neg hc]
        exact unvalidated_get_engine s s' st h
  | opGetSchema s' => exact h
  | opShutdown =>
      refine ⟨h.1, ?_⟩
      intro e hlook
      simp [step, disposeAll, dictLookup] at hlook

theorem unvalidated_run (s : String) :
    ∀ (ops : List Op) (st : CoreState), Unvalidated s st →
      (∀ op ∈ ops, isOkValidateFor s op = false) → Unvalidated s (run ops st) := by
  intro ops
  induction ops with
  | nil => exact fun st h _ => h
  | cons op rest ih =>
      intro st h hops
      exact ih _ (unvalidated_step s st op (hops op (List.mem_cons_self _ _)) h)
        (fun o ho => hops o (List.mem_cons_of_mem _ ho))

/-- The `before_execute` listeners present at the entry of a validation
observe nothing when `s` was never successfully validated. -/
theorem introObservers_of_unvalidated (s : String) (st : CoreState)
    (h : Unvalidated s st) : introObservers s st = [] := by
  unfold introObservers get_engine
  cases hc : dictLookup s st.ENGINE_CACHE with
  | some e => exact (h.2 e hc).1
  | none => rfl

/-- C2. Validating the same connection string twice stores the second
introspection snapshot over the first: after the second successful
`validate_connection s`, `getschema s` returns exactly the second snapshot's
schema (a plain overwrite of `METADATA_STORAGE[s]`, never a merge of old and
new tables). -/
theorem validate_twice_second_snapshot (s : String) (md1 md2 : Metadata)
    (st : CoreState) :
    getschema s
        (validate_connection s (DbOutcome.ok md2)
          (validate_connection s (DbOutcome.ok md1) st).2).2 =
      [("success", RespVal.vBool true), ("data", RespVal.vSchema md2.schema)] := by
  have h := validate_ok_store s md2 (validate_connection s (DbOutcome.ok md1) st).2
  simp [getschema, h, dictLookup_dictInsert_self]

/-- C3. For a connection string on which no validation ever succeeded, any
run of the system leaves `getschema s` returning the
`{"success": False, "message": "Failed to get schema"}` result: the missing
key raises a `KeyError` that the bare `except` converts, so there is neither
an uncaught exception nor a success with an empty schema. -/
theorem getschema_never_validated (ops : List Op) (s : String)
    (hops : ∀ op ∈ ops, isOkValidateFor s op = false) :
    getschema s (run ops initState) =
      [("success", RespVal.vBool false),
       ("message", RespVal.vStr "Failed to get schema")] := by
  have h := unvalidated_run s ops initState (unvalidated_init s) hops
  simp [getschema, h.1]

theorem getschema_never_validated_witness :
    getschema "db"
        (run [Op.opGetEngine "db", Op.opValidate "db" (DbOutcome.probeFail "boom")]
          initState) =
      [("success", RespVal.vBool false),
       ("message", RespVal.vStr "Failed to get schema")] :=
  getschema_never_validated
    [Op.opGetEngine "db", Op.opValidate "db" (DbOutcome.probeFail "boom")] "db"
    (by decide)

/-- C4. A validation that fails with a database error — the liveness probe or
the introspection raises a `SQLAlchemyError` — returns the failure result
carrying the underlying message, leaves the engine for `s` cached in
`ENGINE_CACHE` (the cache is exactly what `get_engine` left: nothing evicted
or disposed), and leaves `METADATA_STORAGE` unchanged. -/
theorem validate_failure_keeps_pool (s msg : String) (st : CoreState) :
    (validate_connection s (DbOutcome.probeFail msg) st).1 =
      [("success", RespVal.vBool false), ("message", RespVal.vStr msg)] ∧
    (validate_connection s (DbOutcome.introspectFail msg) st).1 =
      [("success", RespVal.vBool false), ("message", RespVal.vStr msg)] ∧
    dictLookup s (validate_connection s (DbOutcome.probeFail msg) st).2.ENGINE_CACHE =
      some (get_engine s st).1 ∧
    dictLookup s
        (validate_connection s (DbOutcome.introspectFail msg) st).2.ENGINE_CACHE =
      some (get_engine s st).1 ∧
    (validate_connection s (DbOutcome.probeFail msg) st).2.ENGINE_CACHE =
      (get_engine s st).2.ENGINE_CACHE ∧
    (validate_connection s (DbOutcome.introspectFail msg) st).2.ENGINE_CACHE =
      (get_engine s st).2.ENGINE_CACHE ∧
    (validate_connection s (DbOutcome.probeFail msg) st).2.METADATA_STORAGE =
      st.METADATA_STORAGE ∧
    (validate_connection s (DbOutcome.introspectFail msg) st).2.METADATA_STORAGE =
      st.METADATA_STORAGE := by
  have h1 : (validate_connection s (DbOutcome.probeFail msg) st).2 =
      (get_engine s st).2 := rfl
  have h2 : (validate_connection s (DbOutcome.introspectFail msg) st).2 =
      (get_engine s st).2 := rfl
  refine ⟨rfl, rfl, ?_, ?_, ?_, ?_, ?_, ?_⟩
  · rw [h1]
    exact get_engine_caches s st
  · rw [h2]
    exact get_engine_caches s st
  · rw [h1]
  · rw [h2]
  · rw [h1]
    exact get_engine_store s st
  · rw [h2]
    exact get_engine_store s st

/-- C5. The `lifespan` teardown disposes each cached engine exactly once (the
dispose trace lists every cached engine identity, without repetition) and then
clears `ENGINE_CACHE`; running the disposal sequence again changes nothing and
disposes nothing; and after shutdown a `get_engine` for any connection string
finds an empty cache and creates a fresh engine whose identity is none of the
disposed ones. -/
theorem shutdown_disposes_all_once (ops : List Op) (s : String) :
    (shutdownTrace (run ops initState)).Nodup ∧
    shutdownTrace (run ops initState) = cacheIds (run ops initState) ∧
    (disposeAll (run ops initState)).ENGINE_CACHE = [] ∧
    disposeAll (disposeAll (run ops initState)) = disposeAll (run ops initState) ∧
    shutdownTrace (disposeAll (run ops initState)) = [] ∧
    dictLookup s (disposeAll (run ops initState)).ENGINE_CACHE = none ∧
    (get_engine s (disposeAll (run ops initState))).1.id ∉
      shutdownTrace (run ops initState) := by
  have hinv := stInv_run ops
  refine ⟨hinv.2.1, rfl, rfl, rfl, rfl, rfl, ?_⟩
  intro hmem
  have hid : (get_engine s (disposeAll (run ops initState))).1.id =
      (run ops initState).nextId := rfl
  rw [hid] at hmem
  simp only [shutdownTrace, List.mem_map] at hmem
  obtain ⟨p, hp, hpid⟩ := hmem
  exact absurd (hpid ▸ hinv.2.2 p hp) (lt_irrefl _)

theorem shutdown_disposes_all_once_witness :
    (get_engine "a"
        (disposeAll (run [Op.opGetEngine "a", Op.opGetEngine "b"] initState))).1.id ∉
      shutdownTrace (run [Op.opGetEngine "a", Op.opGetEngine "b"] initState) :=
  (shutdown_disposes_all_once [Op.opGetEngine "a", Op.opGetEngine "b"] "a").2.2.2.2.2.2

/-- C6. Every database error raised inside the bodies of `validate_connection`
and `executeQuery` — the probe, the introspection, or the statement execution
raising a `SQLAlchemyError` — is caught at the operation boundary and
translated into the `{"success": False, "message": str(e)}` result carrying
the original message; the embedded operations are total, so no such error
propagates to the caller. -/
theorem boundary_translates_db_errors (s q msg : String) (st : CoreState)
    (h1 : ¬s = "") (h2 : ¬q = "") :
    (executeQuery s q (ExecOutcome.raise msg) st).1 =
      [("success", RespVal.vBool false), ("message", RespVal.vStr msg)] ∧
    (validate_connection s (DbOutcome.probeFail msg) st).1 =
      [("success", RespVal.vBool false), ("message", RespVal.vStr msg)] ∧
    (validate_connection s (DbOutcome.introspectFail msg) st).1 =
      [("success", RespVal.vBool false), ("message", RespVal.vStr msg)] := by
  refine ⟨?_, rfl, rfl⟩
  unfold executeQuery
  rw [if_neg (not_or.mpr ⟨h1, h2⟩)]

theorem boundary_translates_db_errors_witness :
    (executeQuery "db" "SELECT 1" (ExecOutcome.raise "boom") initState).1 =
      [("success", RespVal.vBool false), ("message", RespVal.vStr "boom")] :=
  (boundary_translates_db_errors "db" "SELECT 1" "boom" initState
    (by decide) (by decide)).1

/-- C7. In a successful validation the two `event.listen` attachments are the
last internal events, strictly after the liveness probe, the introspection and
the metadata store; a failed validation performs no attachment at all.  Hence
the probe and introspection statements of a validation entered while `s` was
never successfully validated are observed by no listener (`introObservers`
lists the listeners present at entry, the only ones that can fire before the
attachments), and every statement executed on an engine whose connection
string was never successfully validated fires the hooks zero times. -/
theorem hooks_attached_after_introspection (md : Metadata) (m1 m2 : String)
    (ops : List Op) (s : String) :
    ((validateTrace (.ok md)).indexOf Ev.probe <
        (validateTrace (.ok md)).indexOf Ev.attachBefore ∧
     (validateTrace (.ok md)).indexOf Ev.introspect <
        (validateTrace (.ok md)).indexOf Ev.attachBefore ∧
     (validateTrace (.ok md)).indexOf Ev.store <
        (validateTrace (.ok md)).indexOf Ev.attachBefore ∧
     (validateTrace (.ok md)).indexOf Ev.attachBefore <
        (validateTrace (.ok md)).indexOf Ev.attachAfter) ∧
    (Ev.attachBefore ∉ validateTrace (.probeFail m1) ∧
     Ev.attachAfter ∉ validateTrace (.probeFail m1) ∧
     Ev.attachBefore ∉ validateTrace (.introspectFail m2) ∧
     Ev.attachAfter ∉ validateTrace (.introspectFail m2)) ∧
    ((∀ op ∈ ops, isOkValidateFor s op = false) →
      introObservers s (run ops initState) = [] ∧
      ∀ e, dictLookup s (run ops initState).ENGINE_CACHE = some e →
        beforeFires e = 0 ∧ afterFires e = 0) := by
  refine ⟨?_, ?_, ?_⟩
  · simp only [validateTrace]
    decide
  · simp only [validateTrace]
    decide
  intro hops
  have h := unvalidated_run s ops initState (unvalidated_init s) hops
  refine ⟨introObservers_of_unvalidated s _ h, ?_⟩
  intro e he
  have := h.2 e he
  simp [beforeFires, afterFires, this.1, this.2]

theorem hooks_attached_after_introspection_witness :
    introObservers "db" (run [Op.opGetEngine "db"] initState) = [] :=
  ((hooks_attached_after_introspection mdSample "x" "y" [Op.opGetEngine "db"]
      "db").2.2 (by decide)).1

/-- C8 counterexample. On a successful validation the response does not carry
the metadata under a key named `"metadata"`: the code returns
`{"success": True, "data": metadata}` (`src/main.py` line 63), so the
`"metadata"` key is absent while `"success"` and `"data"` are present. -/
theorem validate_success_has_no_metadata_key :
    dictLookup "metadata"
        (validate_connection "sqlite://test.db" (DbOutcome.ok mdSample) initState).1 =
      none ∧
    dictLookup "success"
        (validate_connection "sqlite://test.db" (DbOutcome.ok mdSample) initState).1 =
      some (RespVal.vBool true) ∧
    dictLookup "data"
        (validate_connection "sqlite://test.db" (DbOutcome.ok mdSample) initState).1 =
      some (RespVal.vMeta mdSample) := by
  decide

/-- C8 (amended). On success `validate_connection` returns a result of shape
`{"success": True, "data": metadata}` — the success flag together with the
introspected metadata under the key named `"data"` — and on failure a result
of shape `{"success": False, "message": str(e)}`. -/
theorem validate_response_shape (s msg : String) (md : Metadata) (st : CoreState) :
    (validate_connection s (DbOutcome.ok md) st).1 =
      [("success", RespVal.vBool true), ("data", RespVal.vMeta md)] ∧
    (validate_connection s (DbOutcome.probeFail msg) st).1 =
      [("success", RespVal.vBool false), ("message", RespVal.vStr msg)] ∧
    (validate_connection s (DbOutcome.introspectFail msg) st).1 =
      [("success", RespVal.vBool false), ("message", RespVal.vStr msg)] :=
  ⟨rfl, rfl, rfl⟩

/-- C9. When the connection string or the query text is empty (Python falsy),
`executeQuery` returns
`{"success": False, "message": "Connection string or Query is missing"}` and
returns the state untouched: no engine is resolved or created, nothing is
executed, and neither `ENGINE_CACHE` nor `METADATA_STORAGE` changes. -/
theorem executeQuery_missing_field (s q : String) (ex : ExecOutcome)
    (st : CoreState) (h : s = "" ∨ q = "") :
    executeQuery s q ex st =
      ([("success", RespVal.vBool false),
        ("message", RespVal.vStr "Connection string or Query is missing")], st) := by
  unfold executeQuery
  rw [if_pos h]

theorem executeQuery_missing_field_witness :
    executeQuery "" "SELECT 1" (ExecOutcome.ok []) initState =
      ([("success", RespVal.vBool false),
        ("message", RespVal.vStr "Connection string or Query is missing")],
       initState) :=
  executeQuery_missing_field "" "SELECT 1" (ExecOutcome.ok []) initState (Or.inl rfl)

/-- Iterated successful validations of the same connection string. -/
def validateOkFold (s : String) (mds : List Metadata) (st : CoreState) : CoreState :=
  mds.foldl (fun acc md => (validate_connection s (DbOutcome.ok md) acc).2) st

theorem validate_ok_cache_lookup (s : String) (md : Metadata) (st : CoreState) :
    dictLookup s (validate_connection s (DbOutcome.ok md) st).2.ENGINE_CACHE =
      some (listenedEngine s st) := by
  rw [validate_ok_cache, dictLookup_dictInsert_self]

theorem validateOkFold_listener_counts (s : String) (mds : List Metadata) :
    ∀ (st : CoreState) (e : Engine),
      dictLookup s (validateOkFold s mds st).ENGINE_CACHE = some e →
      e.beforeListeners.length =
        (get_engine s st).1.beforeListeners.length + mds.length ∧
      e.afterListeners.length =
        (get_engine s st).1.afterListeners.length + mds.length := by
  induction mds with
  | nil =>
      intro st e he
      have he' : dictLookup s st.ENGINE_CACHE = some e := he
      have hg : (get_engine s st).1 = e := by
        unfold get_engine
        rw [he']
      rw [hg]
      simp
  | cons md rest ih =>
      intro st e he
      have h := ih (validate_connection s (DbOutcome.ok md) st).2 e he
      have hg : (get_engine s (validate_connection s (DbOutcome.ok md) st).2).1 =
          listenedEngine s st := by
        unfold get_engine
        rw [validate_ok_cache_lookup]
      rw [hg] at h
      simp only [listenedEngine, List.length_append, List.length_cons,
        List.length_nil, List.length] at h
      constructor
      · rw [h.1]
        simp only [List.length_cons]
        omega
      · rw [h.2]
        simp only [List.length_cons]
        omega

/-- C10. Hook attachment is not idempotent: starting from a state with no
cached engine for `s`, after `n` successful validations of `s` the cached
engine carries `n` copies of the `before_execute` listener and `n` copies of
the `after_execute` listener, so each subsequently executed statement fires
each hook `n` times. -/
theorem hook_attachment_accumulates (s : String) (mds : List Metadata)
    (st : CoreState) (e : Engine)
    (h0 : dictLookup s st.ENGINE_CACHE = none)
    (he : dictLookup s (validateOkFold s mds st).ENGINE_CACHE = some e) :
    beforeFires e = mds.length ∧ afterFires e = mds.length := by
  have h := validateOkFold_listener_counts s mds st e he
  have hg : (get_engine s st).1.beforeListeners = [] ∧
      (get_engine s st).1.afterListeners = [] := by
    unfold get_engine
    rw [h0]
    exact ⟨rfl, rfl⟩
  rw [hg.1, hg.2] at h
  simpa [beforeFires, afterFires] using h

theorem hook_attachment_accumulates_witness :
    beforeFires
        { id := 0, poolSize := 5, maxOverflow := 10,
          beforeListeners := ["before_execute", "before_execute"],
          afterListeners := ["after_execute", "after_execute"] } = 2 ∧
    afterFires
        { id := 0, poolSize := 5, maxOverflow := 10,
          beforeListeners := ["before_execute", "before_execute"],
          afterListeners := ["after_execute", "after_execute"] } = 2 :=
  hook_attachment_accumulates "db" [mdSample, mdSample] initState _
    (by decide) (by decide)
